/-
Verification of the Hand-Tracker repository (codingkabs/Hand-Tracker).

Shallow embedding of the Python sources into Lean 4:
* pixel coordinates are modelled as integers (`Int × Int`),
* Python floats appearing in the tracker state machines are modelled as
  rationals (`ℚ`) — all arithmetic the claims exercise (sums, averages,
  absolute values, comparisons, `np.clip`, `int(...)`) is exact on them,
* `None` becomes `Option`, a Python exception becomes `Except`,
* the per-frame loops of the `main` functions become explicit step
  functions folded over a list of per-frame inputs.

Sources embedded: base.py, pose_base.py, feature_1_sign_language.py,
feature_3_gesture_game.py, feature_5_virtual_drawing.py,
feature_6_exercise_tracker.py, feature_7_air_piano.py,
feature_8_pose_analyzer.py, feature_9_volume_control.py.
-/
import Mathlib

namespace HandTrackerRepo

/-! ## feature_6_exercise_tracker.py — `ExerciseTracker` -/

/-- State of `ExerciseTracker` (feature_6_exercise_tracker.py, lines 11-19).
`exercise_start_time` is irrelevant to the claims and omitted; wall-clock
times are threaded into `update` as an explicit argument `t`. -/
structure ExerciseTracker where
  reps : Nat
  repTimes : List ℚ
  position1 : Option ℚ
  position2 : Option ℚ
  currentState : String
  isCalibrated : Bool
deriving Repr, DecidableEq

/-- `ExerciseTracker.__init__` (lines 12-19). -/
def ExerciseTracker.init : ExerciseTracker :=
  { reps := 0, repTimes := [], position1 := none, position2 := none,
    currentState := "position_1", isCalibrated := false }

/-- `ExerciseTracker.set_position_1` (lines 21-23). -/
def ExerciseTracker.setPosition1 (s : ExerciseTracker) (y : ℚ) : ExerciseTracker :=
  { s with position1 := some y }

/-- `ExerciseTracker.set_position_2` (lines 25-28): also sets `is_calibrated`. -/
def ExerciseTracker.setPosition2 (s : ExerciseTracker) (y : ℚ) : ExerciseTracker :=
  { s with position2 := some y, isCalibrated := true }

/-- `ExerciseTracker.update` (lines 30-59).  `t` is the value `time.time()`
would return at this call (appended to `rep_times` on a completed rep).
Returns the updated state and the Python return value. -/
def ExerciseTracker.update (s : ExerciseTracker) (t currentY : ℚ) :
    ExerciseTracker × Bool :=
  match s.isCalibrated, s.position1, s.position2 with
  | true, some p1, some p2 =>
    let distToPos1 := |currentY - p1|
    let distToPos2 := |currentY - p2|
    let newState := if distToPos1 < distToPos2 then "position_1" else "position_2"
    if s.currentState = "position_1" ∧ newState = "position_2" then
      ({ s with currentState := "position_2" }, false)
    else if s.currentState = "position_2" ∧ newState = "position_1" then
      ({ s with reps := s.reps + 1, repTimes := s.repTimes ++ [t],
                currentState := "position_1" }, true)
    else
      (s, false)
  | _, _, _ => (s, false)

/-- `ExerciseTracker.reset` (lines 69-77). -/
def ExerciseTracker.reset (_s : ExerciseTracker) : ExerciseTracker :=
  ExerciseTracker.init

/-- Feed a sequence of frame coordinates through `update` (all with time 0;
the times do not influence control flow). -/
def ExerciseTracker.runUpdates (s : ExerciseTracker) (ys : List ℚ) : ExerciseTracker :=
  ys.foldl (fun st y => (st.update 0 y).1) s

/-- The `capture_1` branch of `main` once the capture window ends
(feature_6_exercise_tracker.py, lines 252-256): if any positions were
captured their average is stored via `set_position_1`, otherwise the
tracker is left untouched. -/
def finalizeCapture1 (s : ExerciseTracker) (captured : List ℚ) : ExerciseTracker :=
  if captured ≠ [] then
    s.setPosition1 ((captured.foldl (· + ·) 0) / captured.length)
  else s

/-- The analogous `capture_2` branch (lines 289-293). -/
def finalizeCapture2 (s : ExerciseTracker) (captured : List ℚ) : ExerciseTracker :=
  if captured ≠ [] then
    s.setPosition2 ((captured.foldl (· + ·) 0) / captured.length)
  else s

/-- The tracker calibrated with the reference positions of claim C1. -/
def calibrated100200 : ExerciseTracker :=
  (ExerciseTracker.init.setPosition1 100).setPosition2 200

/-! ## base.py / pose_base.py — landmarks and distances -/

/-- A pixel coordinate as produced by `get_landmarks`
(`(int(l.x * w), int(l.y * h))`). -/
def Point : Type := ℤ × ℤ
deriving DecidableEq, Repr

/-- Euclidean distance of two pixel points, the value
`np.linalg.norm(np.array(point1) - np.array(point2))` computes. -/
noncomputable def euclidDist (a b : Point) : ℝ :=
  Real.sqrt (((a.1 - b.1 : ℤ) : ℝ) ^ 2 + ((a.2 - b.2 : ℤ) : ℝ) ^ 2)

/-- `HandTracker.get_distance` (base.py, lines 95-97).  There is no `None`
guard: `np.array(None) - np.array(point)` raises a `TypeError`, modelled
as `Except.error`. -/
noncomputable def handGetDistance : Option Point → Option Point → Except Unit ℝ
  | some a, some b => .ok (euclidDist a b)
  | _, _ => .error ()

/-- `PoseTracker.get_distance` (pose_base.py, lines 127-131): returns 0
when either point is `None`, the norm otherwise; it never raises. -/
noncomputable def poseGetDistance : Option Point → Option Point → Except Unit ℝ
  | none, _ => .ok 0
  | _, none => .ok 0
  | some a, some b => .ok (euclidDist a b)

/-! ## base.py — finger extension tests, feature_1 variant, and the
rock-paper-scissors classifier of feature_3 -/

/-- The five finger names of the `fingers` dict (base.py, lines 57-63). -/
inductive FingerName | thumb | index | middle | ring | pinky
deriving DecidableEq, Repr

/-- The thumb joint chain `[lm[2], lm[3], lm[4]]` (base.py, line 58):
indices 0, 1, 2 of the Python list. -/
structure Thumb3 where
  base : Point
  mid : Point
  tip : Point
deriving DecidableEq, Repr

/-- A non-thumb joint chain `[lm[mcp], lm[pip], lm[dip], lm[tip]]`
(base.py, lines 59-62): indices 0-3 of the Python list. -/
structure Finger4 where
  base : Point
  pip : Point
  dip : Point
  tip : Point
deriving DecidableEq, Repr

/-- The `fingers` entry of a detected hand (base.py, lines 57-63).
`get_landmarks` always builds chains of exactly 3 (thumb) resp. 4 points,
so the `len(finger_points) >= 3` / `>= 4` guards of
`check_finger_extended` are always satisfied and the chains are modelled
with fixed arity. -/
structure Hand where
  thumb : Thumb3
  index : Finger4
  middle : Finger4
  ring : Finger4
  pinky : Finger4
deriving DecidableEq, Repr

/-- The chain of a non-thumb finger. -/
def Hand.chain (h : Hand) : FingerName → Finger4
  | .thumb => h.index -- unused for the thumb; callers dispatch on the name
  | .index => h.index
  | .middle => h.middle
  | .ring => h.ring
  | .pinky => h.pinky

/-- `HandTracker.is_finger_up` (base.py, lines 76-85): thumb extended iff
`finger_points[2][0] > finger_points[0][0]` (tip strictly right of base),
other fingers extended iff `finger_points[3][1] < finger_points[0][1]`
(tip strictly above base).  No pixel threshold appears. -/
def isFingerUp (h : Hand) : FingerName → Bool
  | .thumb => h.thumb.tip.1 > h.thumb.base.1
  | f => (h.chain f).tip.2 < (h.chain f).base.2

/-- `check_finger_extended` (feature_1_sign_language.py, lines 41-60):
thumb extended iff `abs(thumb_tip[0] - thumb_base[0]) > 40`, other
fingers iff `(base[1] - tip[1]) > 30`. -/
def checkFingerExtended (h : Hand) : FingerName → Bool
  | .thumb => |h.thumb.tip.1 - h.thumb.base.1| > 40
  | f => (h.chain f).base.2 - (h.chain f).tip.2 > 30

/-- `HandTracker.get_finger_count` (base.py, lines 87-93): loop over the
five finger names incrementing a counter. -/
def getFingerCount (h : Hand) : ℕ :=
  [FingerName.thumb, .index, .middle, .ring, .pinky].foldl
    (fun count finger => if isFingerUp h finger then count + 1 else count) 0

/-- `detect_gesture` (feature_3_gesture_game.py, lines 12-24).  The
`finger_count == 2` branch returns `SCISSORS` only when index and middle
are both up, otherwise execution falls through to `UNKNOWN`. -/
def detectGesture (h : Hand) : String :=
  let fingerCount := getFingerCount h
  if fingerCount = 0 then "ROCK"
  else if fingerCount = 5 then "PAPER"
  else if fingerCount = 2 then
    if isFingerUp h .index ∧ isFingerUp h .middle then "SCISSORS"
    else "UNKNOWN"
  else "UNKNOWN"

/-- A hand whose thumb tip is exactly one pixel right of its base, all
other coordinates equal: `is_finger_up` reports the thumb extended. -/
def thumbOnePixelHand : Hand :=
  { thumb := ⟨(0, 0), (0, 0), (1, 0)⟩
    index := ⟨(0, 0), (0, 0), (0, 0), (0, 0)⟩
    middle := ⟨(0, 0), (0, 0), (0, 0), (0, 0)⟩
    ring := ⟨(0, 0), (0, 0), (0, 0), (0, 0)⟩
    pinky := ⟨(0, 0), (0, 0), (0, 0), (0, 0)⟩ }

/-- A hand with exactly index and ring extended (tips 50 px above their
bases), all other fingers level and the thumb tip not right of its base. -/
def indexRingHand : Hand :=
  { thumb := ⟨(0, 0), (0, 0), (0, 0)⟩
    index := ⟨(0, 100), (0, 80), (0, 40), (0, 0)⟩
    middle := ⟨(0, 100), (0, 100), (0, 100), (0, 100)⟩
    ring := ⟨(0, 100), (0, 80), (0, 40), (0, 0)⟩
    pinky := ⟨(0, 100), (0, 100), (0, 100), (0, 100)⟩ }

/-! ## feature_1_sign_language.py — stability/debounce filter of `main`
(lines 294-333) -/

/-- `confidence_threshold = 5` (feature_1_sign_language.py, line 294). -/
def confidenceThreshold : ℕ := 5

/-- The debounce state of `main`: `last_letter` and `letter_count`
(feature_1_sign_language.py, lines 295-296). -/
structure LetterDebounce where
  lastLetter : Option String
  letterCount : ℕ
deriving DecidableEq, Repr

/-- Initial debounce state (`last_letter = None`, `letter_count = 0`). -/
def LetterDebounce.init : LetterDebounce := ⟨none, 0⟩

/-- One frame of the stability check with a hand present
(feature_1_sign_language.py, lines 322-333): equal candidate increments
the count, a differing one resets it to 1 and stores the new label; the
displayed string is the candidate once the count reaches the threshold,
else the placeholder. -/
def debounceStep (s : LetterDebounce) (detected : String) : LetterDebounce × String :=
  let s' :=
    if some detected = s.lastLetter then
      { s with letterCount := s.letterCount + 1 }
    else
      { lastLetter := some detected, letterCount := 1 }
  (s', if s'.letterCount ≥ confidenceThreshold then detected else "Detecting...")

/-- Feed a list of per-frame candidate labels, collecting the displayed
strings. -/
def runDebounce : LetterDebounce → List String → LetterDebounce × List String
  | s, [] => (s, [])
  | s, d :: ds =>
    let step := debounceStep s d
    let rest := runDebounce step.1 ds
    (rest.1, step.2 :: rest.2)

/-! ## feature_8_pose_analyzer.py — `PoseAnalyzer.analyze_posture` -/

/-- The scoring logic of `analyze_posture`
(feature_8_pose_analyzer.py, lines 16-94), embedded over the measured
intermediate quantities: `fingerAngles` is the list of per-finger joint
angles in degrees (the `np.arccos` outputs, lines 22-38), `wristAngle`
the `np.arctan2` output (lines 57-60) and `thumbDistance` the
thumb-tip-to-index-MCP norm (line 70); the float trigonometry producing
them is abstracted into rational inputs and the deductions from the
initial score 100 (20 for average angle below 100 or above 170, 15 for
`|wristAngle| > 45`, 10 for `thumbDistance > 100`) are embedded
exactly. -/
def analyzePostureScore (fingerAngles : List ℚ) (wristAngle thumbDistance : ℚ) : ℤ :=
  let score0 : ℤ := 100
  let avgAngle : ℚ := fingerAngles.foldl (· + ·) 0 / fingerAngles.length
  let score1 :=
    if fingerAngles ≠ [] ∧ (avgAngle < 100 ∨ avgAngle > 170) then score0 - 20 else score0
  let score2 := if |wristAngle| > 45 then score1 - 15 else score1
  if thumbDistance > 100 then score2 - 10 else score2

/-! ## feature_9_volume_control.py — `VolumeControl` -/

/-- Python `int(...)` applied to a real value: truncation toward zero. -/
def pyInt (q : ℚ) : ℤ := if 0 ≤ q then ⌊q⌋ else -⌊-q⌋

/-- State of `VolumeControl` (feature_9_volume_control.py, lines 10-14). -/
structure VolumeControl where
  volume : ℤ
  lastPinchDist : Option ℚ
  isControlling : Bool
deriving DecidableEq, Repr

/-- `VolumeControl.__init__`: `volume = 50  # 0-100`. -/
def VolumeControl.init : VolumeControl := ⟨50, none, false⟩

/-- `VolumeControl.update_volume` (lines 16-25) at the default
`min_dist=20, max_dist=100` used by `main`: the first call only records
the pinch distance; later calls clip the normalised distance to
`[0, 100]` with `np.clip` and store the inverted value through
`int(...)`. -/
def VolumeControl.updateVolume (s : VolumeControl) (pinchDist : ℚ) : VolumeControl :=
  match s.lastPinchDist with
  | none => { s with lastPinchDist := some pinchDist }
  | some _ =>
    let normalized : ℚ := min (max ((pinchDist - 20) / (100 - 20) * 100) 0) 100
    { s with volume := pyInt (100 - normalized), lastPinchDist := some pinchDist }

/-- `VolumeControl.reset` (lines 27-30): clears the recorded pinch
distance and the controlling flag, leaving `volume` untouched. -/
def VolumeControl.reset (s : VolumeControl) : VolumeControl :=
  { s with lastPinchDist := none, isControlling := false }

/-- A call the `main` loop can make on the `VolumeControl` object. -/
inductive VCOp
  | update (pinchDist : ℚ)
  | reset
deriving Repr

/-- Apply one call. -/
def applyVCOp (s : VolumeControl) : VCOp → VolumeControl
  | .update d => s.updateVolume d
  | .reset => s.reset

/-- Run a sequence of calls from the freshly constructed control. -/
def runVC (ops : List VCOp) : VolumeControl :=
  ops.foldl applyVCOp VolumeControl.init

/-! ## feature_5_virtual_drawing.py — `VirtualCanvas` and the drawing
branch of `main` -/

/-- A canvas-mutating primitive performed during one frame. -/
inductive DrawEvent
  | segment (a b : Point)   -- `cv2.line(self.canvas, self.last_point, point, ...)`
  | dot (p : Point)         -- `cv2.circle(self.canvas, point, ...)` in `draw_point`
  | erase (p : Point)       -- the white circle of the erase branch (line 112)
deriving DecidableEq, Repr

/-- The mutable state the drawing loop threads between frames:
`VirtualCanvas.last_point` / `VirtualCanvas.drawing` /
`VirtualCanvas.color_index` (feature_5_virtual_drawing.py, lines 22-24)
and the `main` locals `erase_mode`, `last_finger_count`,
`last_fist_state` (lines 64-66). -/
structure DrawState where
  lastPoint : Option Point
  drawing : Bool
  colorIndex : ℕ
  eraseMode : Bool
  lastFingerCount : ℕ
  lastFistState : Bool
deriving DecidableEq, Repr

/-- Initial drawing state. -/
def DrawState.init : DrawState :=
  { lastPoint := none, drawing := false, colorIndex := 0,
    eraseMode := false, lastFingerCount := 0, lastFistState := false }

/-- `VirtualCanvas.change_color` (lines 26-29). -/
def changeColor (s : DrawState) : DrawState :=
  { s with colorIndex := (s.colorIndex + 1) % 6 }

/-- `VirtualCanvas.draw_point` (lines 31-41): with a previous point and
the drawing flag set it draws a line from the previous point, otherwise a
dot; either way the given point becomes the new `last_point`. -/
def drawPoint (s : DrawState) (point : Option Point) : DrawState × List DrawEvent :=
  match point with
  | none => (s, [])
  | some pt =>
    match s.lastPoint, s.drawing with
    | some lp, true => ({ s with lastPoint := some pt }, [.segment lp pt])
    | _, _ => ({ s with lastPoint := some pt }, [.dot pt])

/-- One iteration of the per-frame drawing logic of `main`
(feature_5_virtual_drawing.py, lines 79-118), with the camera frame
abstracted to the detected hand (`none` when `get_landmarks` returned no
hand).  The fingertip, finger count and index-up test are the embedded
base.py functions applied to the hand. -/
def drawFrame (s : DrawState) (frame : Option Hand) : DrawState × List DrawEvent :=
  match frame with
  | none => (s, [])
  | some h =>
    let indexTip := h.index.tip
    let fingerCount := getFingerCount h
    -- Fist (0 fingers): toggle erase/draw mode once per fist gesture
    let s1 :=
      if fingerCount = 0 then
        if ¬s.lastFistState then
          { s with eraseMode := ¬s.eraseMode, lastFistState := true }
        else s
      else { s with lastFistState := false }
    -- Open hand (5 fingers): change colour once per gesture
    let s2 :=
      if fingerCount = 5 ∧ s1.lastFingerCount ≠ 5 then changeColor s1 else s1
    let s3 := { s2 with lastFingerCount := fingerCount }
    -- Drawing mode
    if isFingerUp h .index ∧ fingerCount ≤ 2 then
      let s4 := { s3 with drawing := true }
      if s4.eraseMode then (s4, [.erase indexTip])
      else drawPoint s4 (some indexTip)
    else
      ({ s3 with drawing := false, lastPoint := none }, [])

/-- Run the drawing loop over a list of frames, concatenating the canvas
events. -/
def runDraw : DrawState → List (Option Hand) → DrawState × List DrawEvent
  | s, [] => (s, [])
  | s, f :: fs =>
    let step := drawFrame s f
    let rest := runDraw step.1 fs
    (rest.1, step.2 ++ rest.2)

/-- A hand in drawing pose (index up, one finger extended) with the index
fingertip at `(10, 0)`. -/
def drawHand1 : Hand :=
  { thumb := ⟨(0, 0), (0, 0), (0, 0)⟩
    index := ⟨(10, 100), (10, 80), (10, 40), (10, 0)⟩
    middle := ⟨(0, 100), (0, 100), (0, 100), (0, 100)⟩
    ring := ⟨(0, 100), (0, 100), (0, 100), (0, 100)⟩
    pinky := ⟨(0, 100), (0, 100), (0, 100), (0, 100)⟩ }

/-- The same drawing pose with the index fingertip at `(200, 50)`. -/
def drawHand2 : Hand :=
  { thumb := ⟨(0, 0), (0, 0), (0, 0)⟩
    index := ⟨(200, 100), (200, 90), (200, 70), (200, 50)⟩
    middle := ⟨(0, 100), (0, 100), (0, 100), (0, 100)⟩
    ring := ⟨(0, 100), (0, 100), (0, 100), (0, 100)⟩
    pinky := ⟨(0, 100), (0, 100), (0, 100), (0, 100)⟩ }

/-- A drawing state mid-stroke: the previous fingertip `(10, 0)` is
stored and the drawing flag is set. -/
def midStrokeState : DrawState :=
  { lastPoint := some (10, 0), drawing := true, colorIndex := 0,
    eraseMode := false, lastFingerCount := 1, lastFistState := false }

/-! ## feature_7_air_piano.py — `PianoKey`, `AirPiano.check_key_press`,
and the learning-mode button debounce of feature_1 `main` -/

/-- A `PianoKey` (feature_7_air_piano.py, lines 10-19); the display
colour is irrelevant to the claims and omitted. -/
structure PianoKey where
  x : ℤ
  y : ℤ
  width : ℤ
  height : ℤ
  note : String
  isBlack : Bool
  pressed : Bool
deriving DecidableEq, Repr

/-- `PianoKey.contains_point` (lines 21-24). -/
def PianoKey.containsPoint (k : PianoKey) (p : Point) : Bool :=
  decide (k.x ≤ p.1 ∧ p.1 ≤ k.x + k.width ∧ k.y ≤ p.2 ∧ p.2 ≤ k.y + k.height)

/-- `AirPiano.check_key_press` (lines 76-85): the loop updates each key's
`pressed` flag in turn and *returns early* at the first key that just
became pressed — keys after it keep their stale flags that frame. -/
def checkKeyPress : List PianoKey → Point → Option String × List PianoKey
  | [], _ => (none, [])
  | k :: rest, p =>
    let pressedNow := k.containsPoint p
    let k' := { k with pressed := pressedNow }
    if pressedNow && !k.pressed then
      (some k.note, k' :: rest)
    else
      let r := checkKeyPress rest p
      (r.1, k' :: r.2)

/-- Feed a sequence of per-frame fingertip positions through
`check_key_press`, collecting the returned notes. -/
def playSeq : List PianoKey → List Point → List (Option String)
  | _, [] => []
  | ks, p :: ps =>
    let r := checkKeyPress ks p
    r.1 :: playSeq r.2 ps

/-- How often a given note fired in a play sequence's outputs. -/
def countNote (outs : List (Option String)) (note : String) : ℕ :=
  outs.count (some note)

/-- `AirPiano.__init__` (feature_7_air_piano.py, lines 47-74): seven
white keys and five black keys, whites first in the list. -/
def mkAirPianoKeys (frameWidth frameHeight : ℤ) : List PianoKey :=
  let keyboardY := frameHeight - 200
  let keyWidth : ℤ := 60
  let keyHeight : ℤ := 150
  let whiteNotes := ["C", "D", "E", "F", "G", "A", "B"]
  let startX := Int.fdiv (frameWidth - (whiteNotes.length : ℤ) * keyWidth) 2
  let whites := whiteNotes.enum.map fun e =>
    ({ x := startX + (e.1 : ℤ) * keyWidth, y := keyboardY, width := keyWidth,
       height := keyHeight, note := e.2, isBlack := false, pressed := false } : PianoKey)
  let blackNotes : List (Option String) :=
    [some "C#", some "D#", none, some "F#", some "G#", some "A#"]
  let blackKeyWidth : ℤ := 40
  let blackKeyHeight : ℤ := 100
  let blacks := blackNotes.enum.filterMap fun e =>
    e.2.map fun note =>
      ({ x := startX + (e.1 : ℤ) * keyWidth + keyWidth - Int.fdiv blackKeyWidth 2,
         y := keyboardY, width := blackKeyWidth, height := blackKeyHeight,
         note := note, isBlack := true, pressed := false } : PianoKey)
  whites ++ blacks

/-- The learning-mode button hover test of feature_1 `main`
(lines 365-375): 300x50 button centred at the bottom of the frame. -/
def buttonHover (frameWidth frameHeight : ℤ) (indexTip : Point) : Bool :=
  let buttonWidth : ℤ := 300
  let buttonHeight : ℤ := 50
  let buttonX := Int.fdiv (frameWidth - buttonWidth) 2
  let buttonY := frameHeight - 80
  decide (buttonX ≤ indexTip.1 ∧ indexTip.1 ≤ buttonX + buttonWidth ∧
          buttonY ≤ indexTip.2 ∧ indexTip.2 ≤ buttonY + buttonHeight)

/-- The button-debounce state of feature_1 `main`: `learning_mode` and
`last_button_state` (lines 297-298). -/
structure ButtonState where
  learningMode : Bool
  lastButtonState : Bool
deriving DecidableEq, Repr

/-- One frame of the button debounce (feature_1_sign_language.py,
lines 371-384); the input is `none` when no hand was detected, otherwise
the hover test result.  The second component reports whether the toggle
fired this frame. -/
def buttonFrame (s : ButtonState) (hover? : Option Bool) : ButtonState × Bool :=
  match hover? with
  | none => ({ s with lastButtonState := false }, false)
  | some hover =>
    if hover && !s.lastButtonState then
      ({ learningMode := !s.learningMode, lastButtonState := true }, true)
    else if !hover then
      ({ s with lastButtonState := false }, false)
    else (s, false)

/-- Number of toggle firings over a sequence of frames. -/
def buttonFires : ButtonState → List (Option Bool) → ℕ
  | _, [] => 0
  | s, f :: fs =>
    let r := buttonFrame s f
    (if r.2 then 1 else 0) + buttonFires r.1 fs

/-- The first white key of `AirPiano(640, 480)`. -/
def keyC640 : PianoKey :=
  { x := 110, y := 280, width := 60, height := 150, note := "C",
    isBlack := false, pressed := false }

/-! ## Theorems -/

lemma update_guard (s : ExerciseTracker) (t y : ℚ)
    (h : s.isCalibrated = false ∨ s.position1 = none ∨ s.position2 = none) :
    s.update t y = (s, false) := by
  unfold ExerciseTracker.update
  split
  · rename_i hc h1 h2
    rw [hc, h1, h2] at h
    simp at h
  · rfl

lemma update_pos1_none (s : ExerciseTracker) (t y : ℚ) (h : s.position1 = none) :
    s.update t y = (s, false) :=
  update_guard s t y (Or.inr (Or.inl h))

lemma runUpdates_pos1_none (s : ExerciseTracker) (ys : List ℚ)
    (h : s.position1 = none) : s.runUpdates ys = s := by
  induction ys with
  | nil => rfl
  | cons y ys ih =>
    show ((s.update 0 y).1).runUpdates ys = s
    rw [update_pos1_none s 0 y h]
    exact ih

lemma calibrated100200_run :
    (calibrated100200.runUpdates [100, 100, 150, 200, 200, 150, 100]).reps = 1 := by
  have e0 : calibrated100200 =
      ⟨0, [], some 100, some 200, "position_1", true⟩ := rfl
  have h1 : ExerciseTracker.update ⟨0, [], some 100, some 200, "position_1", true⟩ 0 100 =
      (⟨0, [], some 100, some 200, "position_1", true⟩, false) := by
    norm_num [ExerciseTracker.update] <;> decide
  have h2 : ExerciseTracker.update ⟨0, [], some 100, some 200, "position_1", true⟩ 0 150 =
      (⟨0, [], some 100, some 200, "position_2", true⟩, false) := by
    norm_num [ExerciseTracker.update] <;> decide
  have h3 : ExerciseTracker.update ⟨0, [], some 100, some 200, "position_2", true⟩ 0 200 =
      (⟨0, [], some 100, some 200, "position_2", true⟩, false) := by
    norm_num [ExerciseTracker.update] <;> decide
  have h4 : ExerciseTracker.update ⟨0, [], some 100, some 200, "position_2", true⟩ 0 150 =
      (⟨0, [], some 100, some 200, "position_2", true⟩, false) := by
    norm_num [ExerciseTracker.update] <;> decide
  have h5 : ExerciseTracker.update ⟨0, [], some 100, some 200, "position_2", true⟩ 0 100 =
      (⟨1, [0], some 100, some 200, "position_1", true⟩, true) := by
    norm_num [ExerciseTracker.update] <;> decide
  show (ExerciseTracker.runUpdates _ _).reps = 1
  unfold ExerciseTracker.runUpdates
  simp only [List.foldl, e0, h1, h2, h3, h4, h5]

/-- **C1.** For a calibrated `ExerciseTracker`, `update` classifies the
current scalar coordinate by absolute distance to the two reference
positions: seeing the far-from-`position_1` class while in phase
`position_1` flips the phase to `position_2` without changing the count;
seeing the `position_1` class while in phase `position_2` increments
`reps` by exactly one (appending the time) and resets the phase; every
other transition leaves the whole state unchanged.  In particular, with
`position1 = 100` and `position2 = 200`, the frame sequence
`[100, 100, 150, 200, 200, 150, 100]` counts exactly one repetition. -/
theorem c1_exercise_update_classification (s : ExerciseTracker) (p1 p2 t y : ℚ)
    (hc : s.isCalibrated = true) (h1 : s.position1 = some p1)
    (h2 : s.position2 = some p2) :
    ((s.currentState = "position_1" → ¬(|y - p1| < |y - p2|) →
        s.update t y = ({ s with currentState := "position_2" }, false)) ∧
     (s.currentState = "position_2" → |y - p1| < |y - p2| →
        s.update t y = ({ s with reps := s.reps + 1, repTimes := s.repTimes ++ [t],
                                 currentState := "position_1" }, true)) ∧
     (s.currentState = "position_1" → |y - p1| < |y - p2| →
        s.update t y = (s, false)) ∧
     (s.currentState = "position_2" → ¬(|y - p1| < |y - p2|) →
        s.update t y = (s, false)) ∧
     (s.currentState ≠ "position_1" → s.currentState ≠ "position_2" →
        s.update t y = (s, false))) ∧
    (calibrated100200.runUpdates [100, 100, 150, 200, 200, 150, 100]).reps = 1 := by
  refine ⟨⟨?_, ?_, ?_, ?_, ?_⟩, calibrated100200_run⟩
  · intro hcs hd
    simp only [ExerciseTracker.update, hc, h1, h2, hcs, if_neg hd]
    split_ifs with hA hB <;>
      first
        | rfl
        | exact absurd hA (by decide)
        | exact absurd (by decide) hA
        | exact absurd hB (by decide)
        | exact absurd (by decide) hB
  · intro hcs hd
    simp only [ExerciseTracker.update, hc, h1, h2, hcs, if_pos hd]
    split_ifs with hA hB <;>
      first
        | rfl
        | exact absurd hA (by decide)
        | exact absurd (by decide) hA
        | exact absurd hB (by decide)
        | exact absurd (by decide) hB
  · intro hcs hd
    simp only [ExerciseTracker.update, hc, h1, h2, hcs, if_pos hd]
    split_ifs with hA hB <;>
      first
        | rfl
        | exact absurd hA (by decide)
        | exact absurd (by decide) hA
        | exact absurd hB (by decide)
        | exact absurd (by decide) hB
  · intro hcs hd
    simp only [ExerciseTracker.update, hc, h1, h2, hcs, if_neg hd]
    split_ifs with hA hB <;>
      first
        | rfl
        | exact absurd hA (by decide)
        | exact absurd (by decide) hA
        | exact absurd hB (by decide)
        | exact absurd (by decide) hB
  · intro hA hB
    simp only [ExerciseTracker.update, hc, h1, h2]
    rw [if_neg (fun h => hA h.1), if_neg (fun h => hB h.1)]

/-- Witness for C1: the theorem applied to the calibrated tracker of the
concrete scenario, at the coordinate 150 (equidistant frame). -/
theorem c1_witness :
    calibrated100200.update 0 150 =
      ({ calibrated100200 with currentState := "position_2" }, false) ∧
    (calibrated100200.runUpdates [100, 100, 150, 200, 200, 150, 100]).reps = 1 := by
  have h := c1_exercise_update_classification calibrated100200 100 200 0 150
    rfl rfl rfl
  exact ⟨h.1.1 rfl (by norm_num), h.2⟩

/-- **C6.** When calibration is incomplete (`is_calibrated` false, or
either reference position unset), `update` returns `False` and leaves the
whole tracker state (reps, rep_times, phase) unchanged; a capture window
with zero valid frames leaves the tracker untouched (the reference
position stays unset); and with `position_1` unset, any sequence of
`update` calls — even after a later `capture_2` stores `position_2` —
leaves the state unchanged and never increments the count. -/
theorem c6_uncalibrated_update_noop :
    (∀ (s : ExerciseTracker) (t y : ℚ),
       s.isCalibrated = false ∨ s.position1 = none ∨ s.position2 = none →
       s.update t y = (s, false)) ∧
    (∀ s : ExerciseTracker, finalizeCapture1 s [] = s) ∧
    (∀ s : ExerciseTracker, finalizeCapture2 s [] = s) ∧
    (∀ (s : ExerciseTracker) (ys : List ℚ),
       s.position1 = none → s.runUpdates ys = s) ∧
    (∀ (s : ExerciseTracker) (captured ys : List ℚ),
       s.position1 = none →
       ((finalizeCapture2 s captured).runUpdates ys).reps = s.reps) := by
  refine ⟨update_guard, fun s => rfl, fun s => rfl, runUpdates_pos1_none, ?_⟩
  intro s captured ys h
  have hpres : (finalizeCapture2 s captured).position1 = none := by
    unfold finalizeCapture2
    split <;> simp [ExerciseTracker.setPosition2, h]
  have hreps : (finalizeCapture2 s captured).reps = s.reps := by
    unfold finalizeCapture2
    split <;> rfl
  rw [runUpdates_pos1_none _ _ hpres, hreps]

/-- **C2 counterexample.** The claim says the distance operation "returns
0 — without raising any error — when either input point is absent", for
both cited implementations.  `HandTracker.get_distance` (base.py) has no
`None` guard and raises on an absent point: at the concrete input
`(None, (0, 0))` it errors instead of returning 0. -/
theorem c2_counterexample :
    handGetDistance none (some ((0 : ℤ), (0 : ℤ))) = .error () ∧
    handGetDistance none (some ((0 : ℤ), (0 : ℤ))) ≠ .ok 0 := by
  exact ⟨rfl, by simp [handGetDistance]⟩

/-- **C2 (amended).** `PoseTracker.get_distance` returns the nonnegative
Euclidean distance when both points are present and returns 0 — without
raising — when either point is absent; `HandTracker.get_distance` returns
the same nonnegative distance on present points but has no `None` guard
and raises (modelled as `Except.error`) when either input is absent. -/
theorem c2_distance_none_behaviour :
    (∀ a b : Point,
       poseGetDistance (some a) (some b) = .ok (euclidDist a b) ∧
       handGetDistance (some a) (some b) = .ok (euclidDist a b) ∧
       0 ≤ euclidDist a b) ∧
    (∀ x : Option Point,
       poseGetDistance none x = .ok 0 ∧ poseGetDistance x none = .ok 0) ∧
    (∀ x : Option Point,
       handGetDistance none x = .error () ∧ handGetDistance x none = .error ()) := by
  refine ⟨fun a b => ⟨rfl, rfl, Real.sqrt_nonneg _⟩, fun x => ?_, fun x => ?_⟩ <;>
    cases x <;> exact ⟨rfl, rfl⟩

/-- **C3 counterexample.** The claim says the finger-extension test
reports the thumb extended iff `|tipX − baseX|` exceeds a fixed threshold
in the 30-40 px range.  `HandTracker.is_finger_up` (one of the two cited
call sites) reports this hand's thumb extended although the displacement
is 1 px — it exceeds no threshold in that range (`¬ 30 < 1`). -/
theorem c3_counterexample :
    isFingerUp thumbOnePixelHand .thumb = true ∧
    |thumbOnePixelHand.thumb.tip.1 - thumbOnePixelHand.thumb.base.1| = 1 ∧
    ¬((30 : ℤ) < 1) := by
  refine ⟨rfl, rfl, by decide⟩

/-- **C3 (amended).** `check_finger_extended` (feature_1) uses fixed pixel
thresholds: thumb extended iff `|tipX − baseX| > 40`, any other finger
extended iff `baseY − tipY > 30`.  `HandTracker.is_finger_up` (base.py)
uses no threshold at all: thumb extended iff `tipX > baseX` (signed, not
absolute), any other finger extended iff `tipY < baseY`. -/
theorem c3_finger_extension_tests (h : Hand) :
    (checkFingerExtended h .thumb = true ↔ 40 < |h.thumb.tip.1 - h.thumb.base.1|) ∧
    (checkFingerExtended h .index = true ↔ 30 < h.index.base.2 - h.index.tip.2) ∧
    (checkFingerExtended h .middle = true ↔ 30 < h.middle.base.2 - h.middle.tip.2) ∧
    (checkFingerExtended h .ring = true ↔ 30 < h.ring.base.2 - h.ring.tip.2) ∧
    (checkFingerExtended h .pinky = true ↔ 30 < h.pinky.base.2 - h.pinky.tip.2) ∧
    (isFingerUp h .thumb = true ↔ h.thumb.base.1 < h.thumb.tip.1) ∧
    (isFingerUp h .index = true ↔ h.index.tip.2 < h.index.base.2) ∧
    (isFingerUp h .middle = true ↔ h.middle.tip.2 < h.middle.base.2) ∧
    (isFingerUp h .ring = true ↔ h.ring.tip.2 < h.ring.base.2) ∧
    (isFingerUp h .pinky = true ↔ h.pinky.tip.2 < h.pinky.base.2) := by
  repeat' constructor <;>
    simp [checkFingerExtended, isFingerUp, Hand.chain]

/-- **C4.** `detect_gesture` returns `ROCK` iff zero fingers are counted
extended, `PAPER` iff all five are, `SCISSORS` iff exactly index and
middle are extended and no others, and `UNKNOWN` otherwise; in
particular a hand with exactly index and ring extended yields
`UNKNOWN`. -/
theorem c4_rps_classifier (h : Hand) :
    (detectGesture h = "ROCK" ↔ getFingerCount h = 0) ∧
    (detectGesture h = "PAPER" ↔ getFingerCount h = 5) ∧
    (detectGesture h = "SCISSORS" ↔
      (isFingerUp h .index = true ∧ isFingerUp h .middle = true ∧
       isFingerUp h .thumb = false ∧ isFingerUp h .ring = false ∧
       isFingerUp h .pinky = false)) ∧
    ((isFingerUp h .index = true ∧ isFingerUp h .ring = true ∧
      isFingerUp h .thumb = false ∧ isFingerUp h .middle = false ∧
      isFingerUp h .pinky = false) → detectGesture h = "UNKNOWN") := by
  cases hth : isFingerUp h .thumb <;> cases hin : isFingerUp h .index <;>
    cases hmi : isFingerUp h .middle <;> cases hri : isFingerUp h .ring <;>
    cases hpi : isFingerUp h .pinky <;>
    simp only [detectGesture, getFingerCount, List.foldl,
      hth, hin, hmi, hri, hpi] <;> decide

/-- Witness for C4: the classifier applied to the index+ring hand yields
`UNKNOWN`, never `SCISSORS`. -/
theorem c4_witness : detectGesture indexRingHand = "UNKNOWN" :=
  (c4_rps_classifier indexRingHand).2.2.2 ⟨rfl, rfl, rfl, rfl, rfl⟩

/-- Witness for C6: the freshly initialised tracker ignores an `update`,
an empty capture window leaves it untouched, and after an empty first
capture followed by a successful second capture, ten update calls leave
the count at zero. -/
theorem c6_witness :
    ExerciseTracker.init.update 0 120 = (ExerciseTracker.init, false) ∧
    finalizeCapture1 ExerciseTracker.init [] = ExerciseTracker.init ∧
    ((finalizeCapture2 ExerciseTracker.init [180, 220]).runUpdates
        [100, 200, 100, 200, 100, 200, 100, 200, 100, 200]).reps = 0 := by
  refine ⟨c6_uncalibrated_update_noop.1 ExerciseTracker.init 0 120 (Or.inl rfl),
          c6_uncalibrated_update_noop.2.1 ExerciseTracker.init, ?_⟩
  exact c6_uncalibrated_update_noop.2.2.2.2 ExerciseTracker.init [180, 220]
    [100, 200, 100, 200, 100, 200, 100, 200, 100, 200] rfl

/-- **C5.** With confidence threshold 5: the same candidate label fed for
four consecutive frames displays the "still detecting" placeholder on
each of them, the fifth consecutive identical frame displays the label
itself, and a differing candidate arriving at any state resets the
consecutive count to 1 with the new label stored as `last_letter` (and
shows the placeholder). -/
theorem c5_debounce_threshold :
    confidenceThreshold = 5 ∧
    (∀ L : String, (runDebounce .init [L, L, L, L]).2 =
      ["Detecting...", "Detecting...", "Detecting...", "Detecting..."]) ∧
    (∀ L : String, (runDebounce .init [L, L, L, L, L]).2 =
      ["Detecting...", "Detecting...", "Detecting...", "Detecting...", L]) ∧
    (∀ (s : LetterDebounce) (M : String), some M ≠ s.lastLetter →
      debounceStep s M = (⟨some M, 1⟩, "Detecting...")) := by
  refine ⟨rfl, fun L => ?_, fun L => ?_, fun s M h => ?_⟩
  · simp [runDebounce, debounceStep, LetterDebounce.init, confidenceThreshold]
  · simp [runDebounce, debounceStep, LetterDebounce.init, confidenceThreshold]
  · simp [debounceStep, confidenceThreshold, if_neg h]

/-- Witness for C5: the run on the concrete label "A", and a reset by the
differing label "B" from a state three frames into detecting "A". -/
theorem c5_witness :
    (runDebounce .init ["A", "A", "A", "A", "A"]).2 =
      ["Detecting...", "Detecting...", "Detecting...", "Detecting...", "A"] ∧
    debounceStep ⟨some "A", 3⟩ "B" = (⟨some "B", 1⟩, "Detecting...") := by
  refine ⟨c5_debounce_threshold.2.2.1 "A",
          c5_debounce_threshold.2.2.2 ⟨some "A", 3⟩ "B" (by decide)⟩

lemma analyzePostureScore_bounds (fingerAngles : List ℚ) (wristAngle thumbDistance : ℚ) :
    55 ≤ analyzePostureScore fingerAngles wristAngle thumbDistance ∧
    analyzePostureScore fingerAngles wristAngle thumbDistance ≤ 100 := by
  simp only [analyzePostureScore]
  split_ifs <;> norm_num

/-- **C9 counterexample.** The claim asserts some hand landmark input
makes `analyze_posture` return a score below 0.  No input does: the
deductions total at most 45, so the score never drops below 55. -/
theorem c9_counterexample :
    ¬ ∃ (fingerAngles : List ℚ) (wristAngle thumbDistance : ℚ),
        analyzePostureScore fingerAngles wristAngle thumbDistance < 0 := by
  rintro ⟨fa, wa, td, h⟩
  have := (analyzePostureScore_bounds fa wa td).1
  omega

/-- **C9 (amended).** The posture score cannot go negative: the source
applies no explicit lower-bound clamp, but the three deductions (20, 15,
10) from the initial 100 total at most 45, so `analyze_posture` always
returns a score between 55 and 100. -/
theorem c9_posture_score_range (fingerAngles : List ℚ) (wristAngle thumbDistance : ℚ) :
    55 ≤ analyzePostureScore fingerAngles wristAngle thumbDistance ∧
    analyzePostureScore fingerAngles wristAngle thumbDistance ≤ 100 ∧
    0 ≤ analyzePostureScore fingerAngles wristAngle thumbDistance := by
  obtain ⟨h1, h2⟩ := analyzePostureScore_bounds fingerAngles wristAngle thumbDistance
  exact ⟨h1, h2, by omega⟩

lemma pyInt_bounds (q : ℚ) (h0 : 0 ≤ q) (h100 : q ≤ 100) :
    0 ≤ pyInt q ∧ pyInt q ≤ 100 := by
  unfold pyInt
  rw [if_pos h0]
  constructor
  · exact Int.le_floor.2 (by exact_mod_cast h0)
  · calc ⌊q⌋ ≤ ⌊(100 : ℚ)⌋ := Int.floor_le_floor h100
    _ = 100 := by norm_num

lemma applyVCOp_bounds (s : VolumeControl) (op : VCOp)
    (h : 0 ≤ s.volume ∧ s.volume ≤ 100) :
    0 ≤ (applyVCOp s op).volume ∧ (applyVCOp s op).volume ≤ 100 := by
  cases op with
  | reset => exact h
  | update d =>
    show 0 ≤ (s.updateVolume d).volume ∧ (s.updateVolume d).volume ≤ 100
    unfold VolumeControl.updateVolume
    cases s.lastPinchDist with
    | none => exact h
    | some d₀ =>
      have hn : (0 : ℚ) ≤ min (max ((d - 20) / (100 - 20) * 100) 0) 100 :=
        le_min (le_max_right _ _) (by norm_num)
      have hn' : min (max ((d - 20) / (100 - 20) * 100) 0) 100 ≤ 100 :=
        min_le_right _ _
      exact pyInt_bounds _ (by linarith) (by linarith)

/-- **C10.** The `VolumeControl` volume is always an integer in
`[0, 100]`: it starts at 50 and stays within bounds under every sequence
of `update_volume` (with arbitrary rational pinch distances) and `reset`
calls, because `update_volume` clips the normalised pinch distance to
`[0, 100]` before inverting it. -/
theorem c10_volume_in_range :
    VolumeControl.init.volume = 50 ∧
    ∀ ops : List VCOp, 0 ≤ (runVC ops).volume ∧ (runVC ops).volume ≤ 100 := by
  refine ⟨rfl, fun ops => ?_⟩
  suffices h : ∀ (s : VolumeControl), 0 ≤ s.volume ∧ s.volume ≤ 100 →
      0 ≤ (ops.foldl applyVCOp s).volume ∧ (ops.foldl applyVCOp s).volume ≤ 100 by
    exact h VolumeControl.init (by constructor <;> norm_num [VolumeControl.init])
  induction ops with
  | nil => exact fun s h => h
  | cons op ops ih =>
    intro s h
    exact ih (applyVCOp s op) (applyVCOp_bounds s op h)

/-- **C8 counterexample.** The claim says that whenever drawing is
interrupted — including the frames where *no hand is detected at all* —
the stored previous point is cleared.  It is not: after a drawing frame
at `(10, 0)` followed by a no-hand frame, `last_point` still holds
`(10, 0)` and the drawing flag is still set, and a third frame drawing
at `(200, 50)` emits a line segment connected from the stale point
recorded before the interruption. -/
theorem c8_counterexample :
    (runDraw .init [some drawHand1, none]).1.lastPoint = some ((10 : ℤ), (0 : ℤ)) ∧
    (runDraw .init [some drawHand1, none]).1.drawing = true ∧
    (runDraw .init [some drawHand1, none, some drawHand2]).2 =
      [.dot ((10 : ℤ), (0 : ℤ)),
       .segment ((10 : ℤ), (0 : ℤ)) ((200 : ℤ), (50 : ℤ))] := by
  refine ⟨rfl, rfl, rfl⟩

/-- **C8 (amended).** A line segment is only ever drawn from the stored
previous point to the current frame's fingertip, and only in a frame
whose hand is in drawing pose with erase mode off; a frame whose hand is
present but *not* in drawing pose clears the previous point (and the
drawing flag) and draws nothing; but a frame with *no hand detected*
leaves the state — including the stored previous point and drawing
flag — completely unchanged, so a stroke can connect across a hand-loss
gap from the point recorded before the interruption. -/
theorem c8_last_point_clearing :
    (∀ (s : DrawState) (h : Hand),
       ¬(isFingerUp h .index = true ∧ getFingerCount h ≤ 2) →
       (drawFrame s (some h)).1.lastPoint = none ∧
       (drawFrame s (some h)).1.drawing = false ∧
       (drawFrame s (some h)).2 = []) ∧
    (∀ s : DrawState, drawFrame s none = (s, [])) ∧
    (∀ (s : DrawState) (f : Option Hand) (a b : Point),
       DrawEvent.segment a b ∈ (drawFrame s f).2 →
       ∃ h, f = some h ∧ s.lastPoint = some a ∧ b = h.index.tip ∧
            isFingerUp h .index = true ∧ getFingerCount h ≤ 2) := by
  refine ⟨?_, fun s => rfl, ?_⟩
  · intro s h hpose
    simp only [drawFrame, if_neg hpose]
    exact ⟨trivial, trivial, trivial⟩
  · intro s f a b hmem
    cases f with
    | none => simp [drawFrame] at hmem
    | some h =>
      refine ⟨h, rfl, ?_⟩
      by_cases hpose : isFingerUp h .index = true ∧ getFingerCount h ≤ 2
      · rcases hlp : s.lastPoint with _ | lp <;>
          by_cases hfc0 : getFingerCount h = 0 <;>
          by_cases hfist : s.lastFistState = true <;>
          by_cases hlf : s.lastFingerCount = 5 <;>
          by_cases her : s.eraseMode = true <;>
          by_cases hfc5 : getFingerCount h = 5 <;>
          simp [drawFrame, drawPoint, changeColor, hpose, hfc0, hfist, hlf,
                her, hfc5, hlp] at hmem <;>
          exact ⟨by rw [hmem.1], by rw [hmem.2], hpose.1, hpose.2⟩
      · simp only [drawFrame, if_neg hpose] at hmem
        simp at hmem

/-- Witness for C8: a hand not in drawing pose clears the previous point,
and the concrete segment emitted from `midStrokeState` connects the
stored previous point to the current fingertip of a drawing-pose hand. -/
theorem c8_witness :
    (drawFrame .init (some thumbOnePixelHand)).1.lastPoint = none ∧
    (∃ h, some drawHand2 = some h ∧
          midStrokeState.lastPoint = some ((10 : ℤ), (0 : ℤ)) ∧
          ((200 : ℤ), (50 : ℤ)) = h.index.tip ∧
          isFingerUp h .index = true ∧ getFingerCount h ≤ 2) := by
  refine ⟨(c8_last_point_clearing.1 DrawState.init thumbOnePixelHand (by decide)).1,
          c8_last_point_clearing.2.2 midStrokeState (some drawHand2)
            ((10 : ℤ), (0 : ℤ)) ((200 : ℤ), (50 : ℤ)) (by decide)⟩

lemma buttonFires_held (fs : List (Option Bool)) :
    ∀ s : ButtonState, s.lastButtonState = true → (∀ x ∈ fs, x = some true) →
    buttonFires s fs = 0 := by
  induction fs with
  | nil => intro s _ _; rfl
  | cons f fs ih =>
    intro s hs hall
    have hf : f = some true := hall f (List.mem_cons_self f fs)
    subst hf
    simp only [buttonFires, buttonFrame, hs]
    rw [if_neg (by simp), if_neg (by simp)]
    simpa using ih s hs (fun x hx => hall x (List.mem_cons_of_mem _ hx))

lemma checkKeyPress_map_note (ks : List PianoKey) (p : Point) :
    (checkKeyPress ks p).2.map PianoKey.note = ks.map PianoKey.note := by
  induction ks with
  | nil => rfl
  | cons k rest ih =>
    simp only [checkKeyPress]
    by_cases hb : (k.containsPoint p && !k.pressed) = true
    · simp [hb]
    · simp [hb, ih]

lemma checkKeyPress_fire_mem (ks : List PianoKey) (p : Point) (n : String) :
    (checkKeyPress ks p).1 = some n → n ∈ ks.map PianoKey.note := by
  induction ks with
  | nil => intro h; exact absurd h (by simp [checkKeyPress])
  | cons k rest ih =>
    simp only [checkKeyPress]
    by_cases hb : (k.containsPoint p && !k.pressed) = true
    · simp only [hb, if_pos rfl]
      intro h
      injection h with h
      simp [h.symm]
    · simp only [hb]
      rw [if_neg (by simpa using hb)]
      intro h
      exact List.mem_cons_of_mem _ (ih h)

lemma checkKeyPress_decomp (pre : List PianoKey) (k : PianoKey)
    (post : List PianoKey) (p : Point) :
    ∃ (pre' post' : List PianoKey) (b : Bool),
      (checkKeyPress (pre ++ k :: post) p).2 = pre' ++ { k with pressed := b } :: post' ∧
      pre'.map PianoKey.note = pre.map PianoKey.note ∧
      post'.map PianoKey.note = post.map PianoKey.note ∧
      (k.pressed = true → k.containsPoint p = true → b = true) ∧
      (∀ n, (checkKeyPress (pre ++ k :: post) p).1 = some n →
        n ∈ pre.map PianoKey.note ∨
        (n = k.note ∧ k.pressed = false ∧ b = true ∧ k.containsPoint p = true) ∨
        n ∈ post.map PianoKey.note) := by
  induction pre with
  | nil =>
    simp only [List.nil_append]
    by_cases hb : (k.containsPoint p && !k.pressed) = true
    · obtain ⟨hcp, hkp⟩ := Bool.and_eq_true _ _ |>.mp hb
      have hkp' : k.pressed = false := by simpa using hkp
      refine ⟨[], post, k.containsPoint p, by simp [checkKeyPress, hb], rfl, rfl,
              fun _ hc => hc, ?_⟩
      intro n hn
      have : (checkKeyPress (k :: post) p).1 = some k.note := by
        simp [checkKeyPress, hb]
      rw [this] at hn
      injection hn with hn
      exact Or.inr (Or.inl ⟨hn.symm, hkp', hcp, hcp⟩)
    · refine ⟨[], (checkKeyPress post p).2, k.containsPoint p,
              by simp [checkKeyPress, hb], rfl, checkKeyPress_map_note post p,
              fun _ hc => hc, ?_⟩
      intro n hn
      have : (checkKeyPress (k :: post) p).1 = (checkKeyPress post p).1 := by
        simp [checkKeyPress, hb]
      rw [this] at hn
      exact Or.inr (Or.inr (checkKeyPress_fire_mem post p n hn))
  | cons q pre'' ih =>
    simp only [List.cons_append]
    by_cases hb : (q.containsPoint p && !q.pressed) = true
    · refine ⟨{ q with pressed := q.containsPoint p } :: pre'', post, k.pressed,
              ?_, by simp, rfl, fun hk _ => hk, ?_⟩
      · simp [checkKeyPress, hb]
      · intro n hn
        have : (checkKeyPress (q :: (pre'' ++ k :: post)) p).1 = some q.note := by
          simp [checkKeyPress, hb]
        rw [this] at hn
        injection hn with hn
        exact Or.inl (by simp [hn.symm])
    · obtain ⟨pre₂, post₂, b, hdec, hpre, hpost, hP1, hfire⟩ := ih
      refine ⟨{ q with pressed := q.containsPoint p } :: pre₂, post₂, b,
              ?_, by simp [hpre], hpost, hP1, ?_⟩
      · simp [checkKeyPress, hb, hdec]
      · intro n hn
        have : (checkKeyPress (q :: (pre'' ++ k :: post)) p).1 =
            (checkKeyPress (pre'' ++ k :: post) p).1 := by
          simp [checkKeyPress, hb]
        rw [this] at hn
        rcases hfire n hn with h1 | h2 | h3
        · exact Or.inl (List.mem_cons_of_mem _ h1)
        · exact Or.inr (Or.inl h2)
        · exact Or.inr (Or.inr h3)

lemma countNote_cons (x : Option String) (l : List (Option String)) (n : String) :
    countNote (x :: l) n = countNote l n + (if x = some n then 1 else 0) := by
  simp [countNote, List.count_cons]

lemma playSeq_count_le (pts : List Point) :
    ∀ (pre : List PianoKey) (k : PianoKey) (post : List PianoKey),
      (∀ q ∈ pts, k.containsPoint q = true) →
      ((pre ++ k :: post).map PianoKey.note).Nodup →
      countNote (playSeq (pre ++ k :: post) pts) k.note ≤ (if k.pressed then 0 else 1) := by
  induction pts with
  | nil =>
    intro pre k post _ _
    cases k.pressed <;> simp [playSeq, countNote]
  | cons q qs ih =>
    intro pre k post hin hnodup
    have hq : k.containsPoint q = true := hin q (List.mem_cons_self q qs)
    obtain ⟨pre', post', b, hdec, hpre, hpost, hP1, hfire⟩ :=
      checkKeyPress_decomp pre k post q
    have hnodup_flat : (pre.map PianoKey.note ++
        k.note :: post.map PianoKey.note).Nodup := by simpa using hnodup
    have hnotpre : k.note ∉ pre.map PianoKey.note := by
      rcases List.nodup_append.mp hnodup_flat with ⟨_, _, hdisj⟩
      exact fun hmem => hdisj hmem (List.mem_cons_self _ _)
    have hnotpost : k.note ∉ post.map PianoKey.note := by
      rcases List.nodup_append.mp hnodup_flat with ⟨_, h2, _⟩
      exact (List.nodup_cons.mp h2).1
    have hin' : ∀ q' ∈ qs, PianoKey.containsPoint { k with pressed := b } q' = true :=
      fun q' hq' => hin q' (List.mem_cons_of_mem _ hq')
    have hnodup' : ((pre' ++ { k with pressed := b } :: post').map PianoKey.note).Nodup := by
      simp only [List.map_append, List.map_cons, hpre, hpost]
      simpa using hnodup_flat
    have ihstep := ih pre' { k with pressed := b } post' hin' hnodup'
    have ihstep' : countNote (playSeq (pre' ++ { k with pressed := b } :: post') qs)
        k.note ≤ if b = true then 0 else 1 := by
      simpa using ihstep
    show countNote ((checkKeyPress (pre ++ k :: post) q).1 ::
        playSeq (checkKeyPress (pre ++ k :: post) q).2 qs) k.note ≤ _
    rw [hdec, countNote_cons]
    by_cases hkp : k.pressed = true
    · -- k was already pressed: it cannot fire and stays pressed
      have hb : b = true := hP1 hkp hq
      have hne : (checkKeyPress (pre ++ k :: post) q).1 ≠ some k.note := by
        intro hcontra
        rcases hfire _ hcontra with h1 | h2 | h3
        · exact hnotpre h1
        · rw [hkp] at h2; exact absurd h2.2.1 (by simp)
        · exact hnotpost h3
      rw [if_neg hne, if_pos hkp]
      have h0 : countNote (playSeq (pre' ++ { k with pressed := b } :: post') qs)
          k.note ≤ 0 := by
        rw [hb]
        rw [hb] at ihstep'
        simpa using ihstep'
      omega
    · have hiterhs : (if k.pressed = true then 0 else 1) = 1 := if_neg hkp
      rw [hiterhs]
      by_cases hfk : (checkKeyPress (pre ++ k :: post) q).1 = some k.note
      · rcases hfire _ hfk with h1 | h2 | h3
        · exact absurd h1 hnotpre
        · have hb : b = true := h2.2.2.1
          rw [if_pos hfk]
          have h0 : countNote (playSeq (pre' ++ { k with pressed := b } :: post') qs)
              k.note ≤ 0 := by
            rw [hb]
            rw [hb] at ihstep'
            simpa using ihstep'
          omega
        · exact absurd h3 hnotpost
      · rw [if_neg hfk]
        have hle1 : countNote (playSeq (pre' ++ { k with pressed := b } :: post') qs)
            k.note ≤ 1 := by
          refine le_trans ihstep' ?_
          cases b <;> simp
        omega

/-- **C7 counterexample.** The claim says every piano key's note event
fires exactly once per contiguous run of frames inside the key, on the
outside→inside transition.  In the real `AirPiano(640, 480)` layout the
black key C# (x 150-190) overlaps the white key D (x 170-230), whites
come first in the key list, and `check_key_press` returns early: for the
single-frame run at `(180, 300)` — a point inside C# — the method
returns `D` and the C# event never fires during the run. -/
theorem c7_counterexample :
    playSeq (mkAirPianoKeys 640 480) [((180 : ℤ), (300 : ℤ))] = [some "D"] ∧
    (mkAirPianoKeys 640 480).any
      (fun k => k.note == "C#" && k.containsPoint ((180 : ℤ), (300 : ℤ))) = true ∧
    countNote (playSeq (mkAirPianoKeys 640 480) [((180 : ℤ), (300 : ℤ))]) "C#" = 0 := by
  refine ⟨by decide, by decide, by decide⟩

/-- **C7 (amended).** The learning-mode button of feature_1 fires its
toggle exactly once per contiguous run of frames with the fingertip
inside the button rectangle, on the outside→inside transition.  A piano
key's note event fires *at most* once per contiguous run of frames
inside that key (never while the key is already marked pressed), but
because `check_key_press` returns early at the first newly pressed key
in list order, an overlapping key later in the list may fire late or not
at all during such a run. -/
theorem c7_press_fires_once_per_run :
    (∀ (w h : ℤ) (s : ButtonState) (tip : Point) (tips : List Point),
       s.lastButtonState = false → buttonHover w h tip = true →
       (∀ t ∈ tips, buttonHover w h t = true) →
       buttonFires s ((tip :: tips).map fun t => some (buttonHover w h t)) = 1) ∧
    (∀ (pts : List Point) (pre : List PianoKey) (k : PianoKey) (post : List PianoKey),
       (∀ q ∈ pts, k.containsPoint q = true) →
       ((pre ++ k :: post).map PianoKey.note).Nodup →
       countNote (playSeq (pre ++ k :: post) pts) k.note ≤ 1) := by
  constructor
  · intro w h s tip tips hs htip hall
    have h0 : buttonFires ⟨!s.learningMode, true⟩
        (tips.map fun t => some (buttonHover w h t)) = 0 := by
      refine buttonFires_held _ _ rfl ?_
      intro x hx
      rcases List.mem_map.mp hx with ⟨t, ht, rfl⟩
      rw [hall t ht]
    simp [buttonFires, buttonFrame, htip, hs, h0]
  · intro pts pre k post hin hnodup
    refine le_trans (playSeq_count_le pts pre k post hin hnodup) ?_
    cases hkp : k.pressed <;> simp

/-- Witness for C7: the button toggles exactly once over a two-frame
hover run at `(200, 410)` in a 640x480 frame, and the white key C of the
real piano fires at most once over a two-frame run at `(120, 300)`
inside it. -/
theorem c7_witness :
    buttonFires ⟨false, false⟩
      (([((200 : ℤ), (410 : ℤ)), ((200 : ℤ), (410 : ℤ))] : List Point).map
        fun t => some (buttonHover 640 480 t)) = 1 ∧
    countNote (playSeq (mkAirPianoKeys 640 480)
      [((120 : ℤ), (300 : ℤ)), ((120 : ℤ), (300 : ℤ))]) "C" ≤ 1 := by
  constructor
  · exact c7_press_fires_once_per_run.1 640 480 ⟨false, false⟩
      ((200 : ℤ), (410 : ℤ)) [((200 : ℤ), (410 : ℤ))] rfl (by decide)
      (by intro t ht; simp at ht; rw [ht]; decide)
  · have e : mkAirPianoKeys 640 480 =
        [] ++ keyC640 :: (mkAirPianoKeys 640 480).drop 1 := by decide
    rw [e]
    have := c7_press_fires_once_per_run.2
      [((120 : ℤ), (300 : ℤ)), ((120 : ℤ), (300 : ℤ))]
      [] keyC640 ((mkAirPianoKeys 640 480).drop 1)
      (by intro q hq; simp at hq; rw [hq]; decide) (by decide)
    simpa using this

end HandTrackerRepo

